import Mathlib

/-!
Verification development for the concmd interactive TUI (src/alt_tui.rs,
src/conf_api.rs, src/actions.rs).

The session state machine of alt_tui.rs is shallowly embedded: the App
struct becomes a Lean structure, every helper method of impl App becomes a
Lean function, and the update function becomes a Lean function from
(environment, state, message) to (state, Except result).  External
collaborators (the document store, the editor process) are a record of
oracle functions supplied as an explicit environment, since the Rust code
only observes their Result values.

Modelling conventions, shared by every definition below:
- Rust usize is Nat; the two subtractions the source performs with
  saturating_sub keep Nat truncated subtraction (identical semantics);
  the one plain usize subtraction that can underflow at runtime
  (list length minus one, on an empty list) is modelled with wrapping
  (release-mode) semantics via usizeSub.
- Rust String is modelled at character granularity: a text buffer is
  List Char and an index counts characters.  The byte indices of the
  source coincide with character counts for single-byte characters.
- ratatui ListState is the pair (offset, selected); its methods
  select_first, select_last, select_next, select_previous are embedded
  from ratatui (select_last stores the usize::MAX sentinel).
- HashMap String PageState is modelled as an association list whose
  insert replaces any previous binding.
- Rust sort_by_key is a stable sort; it is embedded as insertion sort
  (List.insertionSort, also stable), which produces the same list for a
  total preorder on keys.
- A Rust function returning Result, or one that can reach a runtime
  abort, returns the pair of the state with all field writes performed
  before the failure point plus an Except value, mirroring that the Rust
  update mutates the App in place and returns Result separately.
-/

deriving instance DecidableEq for Except

namespace Concmd

/-- Number of values of usize (64-bit). -/
def USIZE : Nat := 2 ^ 64

/-- Largest usize value, used by ratatui select_last as a sentinel. -/
def USIZE_MAX : Nat := USIZE - 1

/-- Wrapping (release-mode) usize subtraction, for the one subtraction in
the source that can underflow: list_length - 1 when the list is empty. -/
def usizeSub (a b : Nat) : Nat := (a + (USIZE - b % USIZE)) % USIZE

/-- Saturating usize addition, as used by ratatui select_next. -/
def usizeSatAdd (a b : Nat) : Nat := min (a + b) USIZE_MAX

/-- Number of values of u16 (terminal cell coordinates). -/
def U16 : Nat := 2 ^ 16

/-- Reinterpret a u16 value as i16 (the `as i16` cast of the source). -/
def asI16 (n : Nat) : Int := ((n % U16 : Nat) : Int) - (if n % U16 ≥ 2 ^ 15 then (U16 : Int) else 0)

/-- Wrap an integer into i16 range (release-mode overflow semantics of
i16 addition and subtraction in mouse_select_list). -/
def wrapI16 (z : Int) : Int := ((z + 2 ^ 15) % (U16 : Int)) - 2 ^ 15

/-- Insert an element at a character index, as Rust String::insert.
Indices past the end append (the source never reaches that case within
the hypotheses used here; Rust would abort). -/
def listInsertAt {α : Type} : Nat → α → List α → List α
  | 0, a, l => a :: l
  | _ + 1, a, [] => [a]
  | n + 1, a, x :: xs => x :: listInsertAt n a xs

/-- Remove the element at a character index, as Rust String::remove.
Out-of-range indices leave the list unchanged (the source never reaches
that case within the hypotheses used here; Rust would abort). -/
def listRemoveAt {α : Type} : Nat → List α → List α
  | _, [] => []
  | 0, _ :: xs => xs
  | n + 1, x :: xs => x :: listRemoveAt n xs

/-- Does the second list appear as a leading block of the first? -/
def startsWith : List Char → List Char → Bool
  | _, [] => true
  | [], _ :: _ => false
  | h :: hs, n :: ns => h == n && startsWith hs ns

/-- Contiguous-subsequence test: Rust str::contains on the character
level (haystack first, needle second). -/
def containsSeq : List Char → List Char → Bool
  | [], needle => needle.isEmpty
  | h :: t, needle => startsWith (h :: t) needle || containsSeq t needle

/-- Character-level lowercasing, as Rust str::to_lowercase (which agrees
with per-character lowercasing on the ASCII titles considered here). -/
def lowerChars (l : List Char) : List Char := l.map Char.toLower

/-- Lexicographic order on character lists by code point, which agrees
with the byte order Rust uses for String keys (UTF-8 preserves code point
order). -/
def chLe : List Char → List Char → Bool
  | [], _ => true
  | _ :: _, [] => false
  | a :: as, b :: bs =>
    if a.toNat < b.toNat then true
    else if b.toNat < a.toNat then false
    else chLe as bs

/-- Lexicographic order on strings (Rust String as sort key). -/
def strLe (a b : String) : Bool := chLe a.toList b.toList

/-- conf_api.rs Space: identifier, key, display name. -/
structure Space where
  id : String
  key : String
  name : String
deriving DecidableEq, Repr

/-- conf_api.rs Page, restricted to the fields the session state machine
reads: identifier, title, creation timestamp.  The body, status and
version fields are only passed through to the store collaborator. -/
structure Page where
  id : String
  title : String
  created_at : Option String
deriving DecidableEq, Repr

/-- Attr::get_name for Page. -/
def Page.get_name (p : Page) : String := p.title

/-- Page::get_date_created: the first ten characters of the raw creation
timestamp (split_at(10)), or the empty string when the timestamp is
absent.  The source assumes the timestamp has at least ten bytes. -/
def Page.get_date_created (p : Page) : String :=
  match p.created_at with
  | some created_at => String.mk (created_at.toList.take 10)
  | none => ""

/-- ratatui ListState: scroll offset plus selected index. -/
structure LState where
  offset : Nat
  selected : Option Nat
deriving DecidableEq, Repr

/-- ListState::default: offset 0, nothing selected. -/
def LState.init : LState := ⟨0, none⟩

/-- ListState::select: stores the index and resets the offset when the
selection is cleared. -/
def LState.select (s : LState) (i : Option Nat) : LState :=
  match i with
  | none => { s with selected := none, offset := 0 }
  | some v => { s with selected := some v }

/-- ListState::select_first. -/
def LState.select_first (s : LState) : LState := s.select (some 0)

/-- ListState::select_last: stores the usize::MAX sentinel. -/
def LState.select_last (s : LState) : LState := s.select (some USIZE_MAX)

/-- ListState::select_next: saturating successor of the selection, or 0. -/
def LState.select_next (s : LState) : LState :=
  s.select (some (match s.selected with
    | some i => usizeSatAdd i 1
    | none => 0))

/-- ListState::select_previous: saturating predecessor, or usize::MAX. -/
def LState.select_previous (s : LState) : LState :=
  s.select (some (match s.selected with
    | some i => i - 1
    | none => USIZE_MAX))

/-- alt_tui.rs SortType. -/
inductive SortType
  | Title
  | CreatedOn
deriving DecidableEq, Repr

/-- alt_tui.rs SortDirection. -/
inductive SortDirection
  | Asc
  | Desc
deriving DecidableEq, Repr

/-- alt_tui.rs struct Sort (renamed, Sort being reserved in Lean): list
state over the sort-type array, direction, the fixed array of sort types,
and the snapshot saved by set_sort for cancel-to-previous. -/
structure SortState where
  type_state : LState
  dir_state : SortDirection
  sort_types_array : List SortType
  saved_state : LState × SortDirection
deriving DecidableEq, Repr

/-- The Sort value App::new and reset_sort construct: first type
selected, ascending, default (nothing-selected) snapshot. -/
def SortState.start : SortState :=
  { type_state := LState.init.select_first
    dir_state := .Asc
    sort_types_array := [.CreatedOn, .Title]
    saved_state := (LState.init, .Asc) }

/-- alt_tui.rs struct Search. -/
structure SearchState where
  current_search : List Char
  search_active : Bool
deriving DecidableEq, Repr

/-- alt_tui.rs PageState: per-page save annotation. -/
inductive PageState
  | NotSaved
  | Saved
deriving DecidableEq, Repr

/-- alt_tui.rs CurrentArea: the single active UI mode. -/
inductive CurrentArea
  | Spaces
  | Pages
  | SavePopup
  | NewPagePopup
  | DeletePopup
  | SearchPopup
  | SortPopup
  | TitlePopup
deriving DecidableEq, Repr

/-- alt_tui.rs Bounds: rendered list rectangle, written by draw. -/
structure Bounds where
  left : Nat
  right : Nat
  top : Nat
deriving DecidableEq, Repr

/-- Bounds::default. -/
def Bounds.init : Bounds := ⟨0, 0, 0⟩

/-- HashMap::remove on the association-list model. -/
def mapRemove (k : String) (l : List (String × PageState)) : List (String × PageState) :=
  l.filter (fun p => p.1 ≠ k)

/-- HashMap::insert on the association-list model (replaces a previous
binding for the key). -/
def mapInsert (k : String) (v : PageState) (l : List (String × PageState)) :
    List (String × PageState) :=
  (k, v) :: mapRemove k l

/-- alt_tui.rs struct App: the entire session state. -/
structure App where
  space_list : List Space
  page_list : List Page
  space_list_state : LState
  page_list_state : LState
  current_area : CurrentArea
  exit : Bool
  edited_file_path : Option String
  page_states_map : List (String × PageState)
  new_page_title : List Char
  cursor_negative_offset : Nat
  search : SearchState
  show_preview : Bool
  show_help : Bool
  sort : SortState
  space_list_pos : Bounds
  page_list_pos : Bounds
  page_updated_title : List Char
deriving DecidableEq, Repr

/-- App::new. -/
def App.new (space_list : List Space) : App :=
  { space_list := space_list
    page_list := []
    space_list_state := LState.init
    page_list_state := LState.init
    current_area := .Spaces
    exit := false
    edited_file_path := none
    page_states_map := []
    new_page_title := []
    cursor_negative_offset := 0
    search := { current_search := [], search_active := false }
    show_preview := false
    show_help := false
    sort := SortState.start
    space_list_pos := Bounds.init
    page_list_pos := Bounds.init
    page_updated_title := [] }

/-- Ascending order of pages by title (sort_by_key on title). -/
def titleLe (a b : Page) : Prop := strLe a.title b.title = true

/-- Descending order of pages by title (sort_by_key on Reverse(title)). -/
def titleGe (a b : Page) : Prop := strLe b.title a.title = true

/-- Ascending order of pages by creation date key. -/
def dateLe (a b : Page) : Prop := strLe a.get_date_created b.get_date_created = true

/-- Descending order of pages by creation date key. -/
def dateGe (a b : Page) : Prop := strLe b.get_date_created a.get_date_created = true

instance : DecidableRel titleLe := fun _ _ => inferInstanceAs (Decidable (_ = true))
instance : DecidableRel titleGe := fun _ _ => inferInstanceAs (Decidable (_ = true))
instance : DecidableRel dateLe := fun _ _ => inferInstanceAs (Decidable (_ = true))
instance : DecidableRel dateGe := fun _ _ => inferInstanceAs (Decidable (_ = true))

/-- App::sort_pages: stable sort of the page list by the selected key and
direction (Rust stable sort_by_key, embedded as stable insertion sort;
Reverse(key) descends). -/
def sort_pages (sort_type : SortType) (sort_dir : SortDirection) (l : List Page) : List Page :=
  match sort_type, sort_dir with
  | .Title, .Asc => l.insertionSort titleLe
  | .Title, .Desc => l.insertionSort titleGe
  | .CreatedOn, .Asc => l.insertionSort dateLe
  | .CreatedOn, .Desc => l.insertionSort dateGe

/-- App::get_selected_space: bounds-checked lookup of the selected
space. -/
def App.get_selected_space (a : App) : Option Space :=
  match a.space_list_state.selected with
  | some selected_index => a.space_list[selected_index]?
  | none => none

/-- App::get_selected_page: bounds-checked lookup of the selected page. -/
def App.get_selected_page (a : App) : Option Page :=
  match a.page_list_state.selected with
  | some selected_index => a.page_list[selected_index]?
  | none => none

/-- Core of App::list_next for one list: wrap to the first element past
the end, otherwise advance; select the first element when nothing is
selected.  The bound uses wrapping usize subtraction as the source
computes list_length - 1 with plain usize arithmetic. -/
def lnext (st : LState) (len : Nat) : LState :=
  match st.selected with
  | some i => if i ≥ usizeSub len 1 then st.select_first else st.select_next
  | none => st.select_first

/-- Core of App::list_previous for one list. -/
def lprev (st : LState) : LState :=
  match st.selected with
  | some i => if i = 0 then st.select_last else st.select_previous
  | none => st.select_last

/-- App::list_next: route to the list the current area focuses. -/
def App.list_next (a : App) : App :=
  match a.current_area with
  | .Spaces => { a with space_list_state := lnext a.space_list_state a.space_list.length }
  | .Pages => { a with page_list_state := lnext a.page_list_state a.page_list.length }
  | .SortPopup =>
      { a with sort :=
        { a.sort with type_state := lnext a.sort.type_state a.sort.sort_types_array.length } }
  | _ => a

/-- App::list_previous: route to the list the current area focuses. -/
def App.list_previous (a : App) : App :=
  match a.current_area with
  | .Spaces => { a with space_list_state := lprev a.space_list_state }
  | .Pages => { a with page_list_state := lprev a.page_list_state }
  | .SortPopup => { a with sort := { a.sort with type_state := lprev a.sort.type_state } }
  | _ => a

/-- The text buffer the current area routes text entry to (the match at
the top of backspace_text, cursor_left and type_char). -/
def textOf (a : App) : Option (List Char) :=
  match a.current_area with
  | .NewPagePopup => some a.new_page_title
  | .SearchPopup => some a.search.current_search
  | .TitlePopup => some a.page_updated_title
  | _ => none

/-- Write back the text buffer the current area routes text entry to. -/
def setText (a : App) (t : List Char) : App :=
  match a.current_area with
  | .NewPagePopup => { a with new_page_title := t }
  | .SearchPopup => { a with search := { a.search with current_search := t } }
  | .TitlePopup => { a with page_updated_title := t }
  | _ => a

/-- App::backspace_text: remove the character before the cursor unless
the buffer is empty or the cursor sits at the start (the index uses
saturating subtraction exactly as the source). -/
def App.backspace_text (a : App) : App :=
  match textOf a with
  | none => a
  | some current_text =>
    let current_length := current_text.length
    if current_length ≠ 0 ∧ current_length ≠ a.cursor_negative_offset then
      setText a (listRemoveAt (current_length - (a.cursor_negative_offset + 1)) current_text)
    else a

/-- App::cursor_left: grow the offset from the end, clamped to the
buffer length. -/
def App.cursor_left (a : App) : App :=
  match textOf a with
  | none => a
  | some current_text =>
    if a.cursor_negative_offset < current_text.length then
      { a with cursor_negative_offset := a.cursor_negative_offset + 1 }
    else a

/-- App::cursor_right: shrink the offset, saturating at 0; the source
performs this in every area. -/
def App.cursor_right (a : App) : App :=
  { a with cursor_negative_offset := a.cursor_negative_offset - 1 }

/-- App::type_char: insert at length - offset. -/
def App.type_char (a : App) (c : Char) : App :=
  match textOf a with
  | none => a
  | some current_text =>
    setText a (listInsertAt (current_text.length - a.cursor_negative_offset) c current_text)

/-- App::reset_cursor. -/
def App.reset_cursor (a : App) : App := { a with cursor_negative_offset := 0 }

/-- App::get_selected_sort: read the selected sort type from the fixed
array plus the current direction; indexing past the array is the Rust
index abort, surfaced as an error. -/
def App.get_selected_sort (a : App) : Except String (Option (SortType × SortDirection)) :=
  match a.sort.type_state.selected with
  | some selected_type =>
    match a.sort.sort_types_array[selected_type]? with
    | some ty => .ok (some (ty, a.sort.dir_state))
    | none => .error "sort type index out of bounds"
  | none => .ok none

/-- App::set_sort: save the current sort list states as the snapshot,
then apply the selected sort if one is selected. -/
def App.set_sort (a : App) : App × Except String Unit :=
  let b := { a with sort := { a.sort with saved_state := (a.sort.type_state, a.sort.dir_state) } }
  match b.get_selected_sort with
  | .error e => (b, .error e)
  | .ok none => (b, .ok ())
  | .ok (some (ty, dir)) => ({ b with page_list := sort_pages ty dir b.page_list }, .ok ())

/-- App::reset_sort_state: restore type state and direction from the
snapshot. -/
def App.reset_sort_state (a : App) : App :=
  { a with sort :=
    { a.sort with type_state := a.sort.saved_state.1, dir_state := a.sort.saved_state.2 } }

/-- App::toggle_sort_dir. -/
def App.toggle_sort_dir (a : App) : App :=
  match a.sort.dir_state with
  | .Asc => { a with sort := { a.sort with dir_state := .Desc } }
  | .Desc => { a with sort := { a.sort with dir_state := .Asc } }

/-- App::reset_search: deactivate and clear only when a search was
active. -/
def App.reset_search (a : App) : App :=
  if a.search.search_active then
    { a with search := { current_search := [], search_active := false } }
  else a

/-- App::reset_sort: reinstate the initial Sort value. -/
def App.reset_sort (a : App) : App := { a with sort := SortState.start }

/-- App::clear_page_saved_state. -/
def App.clear_page_saved_state (a : App) (page_id : String) : App :=
  { a with page_states_map := mapRemove page_id a.page_states_map }

/-- App::toggle_preview. -/
def App.toggle_preview (a : App) : App := { a with show_preview := !a.show_preview }

/-- App::toggle_help. -/
def App.toggle_help (a : App) : App := { a with show_help := !a.show_help }

/-- Core of App::mouse_select_list for one list: clear the selection for
clicks outside the rendered box, otherwise select the row under the
pointer, honouring the scroll offset (i16 casts follow release-mode
wrapping). -/
def mouseSel (st : LState) (pos : Bounds) (len x y : Nat) : LState :=
  let top_ui_offset := (pos.top + 1) % U16
  if x ≤ pos.left ∨ x ≥ pos.right ∨ y ≤ pos.top ∨
      y ≥ (usizeSub len st.offset + top_ui_offset) % USIZE then
    st.select none
  else
    let point := wrapI16 (asI16 y - asI16 top_ui_offset)
    let idx := wrapI16 (point + asI16 st.offset)
    if idx ≥ 0 then st.select (some idx.toNat) else st

/-- App::mouse_select_list: route to the list the current area focuses. -/
def App.mouse_select_list (a : App) (x y : Nat) : App :=
  match a.current_area with
  | .Spaces =>
    { a with space_list_state := mouseSel a.space_list_state a.space_list_pos a.space_list.length x y }
  | .Pages =>
    { a with page_list_state := mouseSel a.page_list_state a.page_list_pos a.page_list.length x y }
  | _ => a

/-- The search filter of the ConfirmSearch arm: case-insensitive
substring match of the current query against the page name. -/
def matchesSearch (query : List Char) (p : Page) : Bool :=
  containsSeq (lowerChars p.get_name.toList) (lowerChars query)

/-- alt_tui.rs enum Message: all user actions. -/
inductive Message
  | ListNext
  | ListPrevious
  | Select
  | Back
  | Exit
  | Save
  | ConfirmSave
  | RejectSave
  | Refresh
  | OpenEditor
  | NewPage
  | SaveNewPage
  | CancelNewPage
  | Backspace
  | TypeChar (c : Char)
  | CursorLeft
  | CursorRight
  | DeletePage
  | ConfirmDeletePage
  | CancelDeletePage
  | StartSearch
  | ConfirmSearch
  | CancelSearch
  | TogglePreview
  | ToggleHelp
  | StartSort
  | ConfirmSort
  | CancelSort
  | ToggleSortDir
  | MouseSelect (x y : Nat)
  | UpdateTitle
  | ConfirmTitle
  | CancelTitle
deriving DecidableEq, Repr

/-- The crossterm key codes the source matches on; Other stands for every
key code matched by no arm. -/
inductive KeyCode
  | Char (c : Char)
  | Up
  | Down
  | Left
  | Right
  | Enter
  | Esc
  | Backspace
  | Other
deriving DecidableEq, Repr

/-- The per-area part of handle_key_event (everything after the
universal match). -/
def areaKey (k : KeyCode) (current_area : CurrentArea) : Option Message :=
  match current_area with
  | .Spaces =>
    match k with
    | .Up => some .ListPrevious
    | .Down => some .ListNext
    | .Left => some .Back
    | .Right => some .Select
    | .Enter => some .Select
    | .Char c => if c = 'r' then some .Refresh else none
    | _ => none
  | .Pages =>
    match k with
    | .Up => some .ListPrevious
    | .Down => some .ListNext
    | .Left => some .Back
    | .Right => some .Select
    | .Enter => some .Select
    | .Char c =>
      if c = 'r' then some .Refresh
      else if c = 'n' then some .NewPage
      else if c = 'd' then some .DeletePage
      else if c = 's' ∨ c = '/' then some .StartSearch
      else if c = 'p' then some .TogglePreview
      else if c = 'o' then some .StartSort
      else if c = 't' then some .UpdateTitle
      else none
    | _ => none
  | .SavePopup =>
    match k with
    | .Char c =>
      if c = 'y' ∨ c = 'Y' then some .ConfirmSave
      else if c = 'n' ∨ c = 'N' then some .RejectSave
      else none
    | _ => none
  | .NewPagePopup =>
    match k with
    | .Enter => some .SaveNewPage
    | .Esc => some .CancelNewPage
    | .Backspace => some .Backspace
    | .Left => some .CursorLeft
    | .Right => some .CursorRight
    | .Char value => some (.TypeChar value)
    | _ => none
  | .DeletePopup =>
    match k with
    | .Char c =>
      if c = 'y' ∨ c = 'Y' then some .ConfirmDeletePage
      else if c = 'n' ∨ c = 'N' then some .CancelDeletePage
      else none
    | _ => none
  | .SearchPopup =>
    match k with
    | .Enter => some .ConfirmSearch
    | .Esc => some .CancelSearch
    | .Backspace => some .Backspace
    | .Left => some .CursorLeft
    | .Right => some .CursorRight
    | .Char value => some (.TypeChar value)
    | _ => none
  | .SortPopup =>
    match k with
    | .Enter => some .ConfirmSort
    | .Esc => some .CancelSort
    | .Up => some .ListPrevious
    | .Down => some .ListNext
    | .Char c => if c = 'd' then some .ToggleSortDir else none
    | _ => none
  | .TitlePopup =>
    match k with
    | .Enter => some .ConfirmTitle
    | .Esc => some .CancelTitle
    | .Backspace => some .Backspace
    | .Left => some .CursorLeft
    | .Right => some .CursorRight
    | .Char value => some (.TypeChar value)
    | _ => none

/-- handle_key_event: the universal matches for quit and help run first,
in every area, then the per-area match. -/
def handle_key_event (k : KeyCode) (current_area : CurrentArea) : Option Message :=
  if k = .Char 'q' then some .Exit
  else if k = .Char '?' then some .ToggleHelp
  else areaKey k current_area

/-- The external collaborators (document store via actions.rs, editor
process via run_editor), as oracle functions.  The environment is fixed
over a run: each call is synchronous and returns a Result. -/
structure Env where
  listSpaces : Except String (List Space)
  listPages : String → Except String (List Page)
  uploadPage : Page → Option String → Except String Unit
  createPage : Space → List Char → Except String Unit
  deletePage : Page → Except String Unit
  updateTitle : Page → List Char → Except String Unit
  editPage : Page → Except String String

/-- App::load_pages: replace the page list from the store and apply the
default sort (created date, ascending).  On failure the list is left
unchanged. -/
def App.load_pages (a : App) (env : Env) (space_id : String) : App × Except String Unit :=
  match env.listPages space_id with
  | .error e => (a, .error e)
  | .ok ps => ({ a with page_list := sort_pages .CreatedOn .Asc ps }, .ok ())

/-- App::refresh_current_list: reload the focused list; calling it from
any area other than Spaces or Pages, or from Pages with no selected
space, is a runtime abort in the source, surfaced as an error. -/
def App.refresh_current_list (a : App) (env : Env) : App × Except String Unit :=
  match a.current_area with
  | .Pages =>
    match a.get_selected_space with
    | some sp => a.load_pages env sp.id
    | none => (a, .error "no selected space in pages pane")
  | .Spaces =>
    match env.listSpaces with
    | .ok sl => ({ a with space_list := sl }, .ok ())
    | .error e => (a, .error e)
  | _ => (a, .error "refresh called from a popup area")

/-- The leading conditional of the ConfirmSearch arm: when a search is
already active, first reload the unfiltered list. -/
def App.confirm_search_refresh (a : App) (env : Env) : App × Except String Unit :=
  if a.search.search_active then a.refresh_current_list env else (a, .ok ())

/-- The update function of alt_tui.rs: one message applied to the state,
returning the new state plus either a chained message to process before
the next render, or the error that aborts the session loop.  Field
writes the source performs before a failing store call are kept in the
returned state, mirroring in-place mutation. -/
def update1 (env : Env) (a : App) (m : Message) : App × Except String (Option Message) :=
  match m with
  | .Exit => ({ a with exit := true }, .ok none)
  | .ListNext => (a.list_next, .ok none)
  | .ListPrevious => (a.list_previous, .ok none)
  | .Select =>
    match a.current_area with
    | .Spaces =>
      match a.get_selected_space with
      | some selected_space =>
        match a.load_pages env selected_space.id with
        | (b, .ok _) => ({ b with current_area := .Pages }, .ok none)
        | (b, .error e) => (b, .error e)
      | none => (a, .ok none)
    | .Pages => (a, .ok (some .OpenEditor))
    | _ => (a, .ok none)
  | .OpenEditor =>
    match a.get_selected_page with
    | some page =>
      let b := a.clear_page_saved_state page.id
      match env.editPage page with
      | .ok edited_file_path =>
        ({ b with edited_file_path := some edited_file_path, current_area := .SavePopup },
          .ok none)
      | .error e => (b, .error e)
    | none => (a, .ok none)
  | .ConfirmSave =>
    match a.current_area with
    | .SavePopup =>
      match a.get_selected_page with
      | some page =>
        ({ a with page_states_map := mapInsert page.id .Saved a.page_states_map },
          .ok (some .Save))
      | none => (a, .error "attempted to save without a page selected")
    | _ => (a, .ok none)
  | .RejectSave =>
    match a.current_area, a.get_selected_page with
    | .SavePopup, some page =>
      ({ a with current_area := .Pages, page_states_map := mapInsert page.id .NotSaved a.page_states_map }, .ok none)
    | _, _ => (a, .ok none)
  | .Save =>
    match a.current_area with
    | .SavePopup =>
      match a.get_selected_page with
      | some page =>
        match env.uploadPage page a.edited_file_path with
        | .ok _ => ({ a with current_area := .Pages }, .ok (some .Refresh))
        | .error e => (a, .error e)
      | none => (a, .error "should not attempt to save without a page selected")
    | _ => (a, .ok none)
  | .Back =>
    let b :=
      match a.current_area with
      | .Pages =>
        { a with page_list := [], page_list_state := LState.init, current_area := .Spaces }
      | .Spaces => { a with space_list_state := LState.init }
      | _ => a
    (b.reset_search, .ok none)
  | .Refresh =>
    let b := a.reset_search.reset_sort
    match b.refresh_current_list env with
    | (c, .ok _) => (c, .ok none)
    | (c, .error e) => (c, .error e)
  | .NewPage => ({ a with current_area := .NewPagePopup }, .ok none)
  | .CancelNewPage =>
    ({ a with current_area := .Pages, new_page_title := [], cursor_negative_offset := 0 },
      .ok none)
  | .SaveNewPage =>
    match a.get_selected_space with
    | some selected_space =>
      match env.createPage selected_space a.new_page_title with
      | .ok _ =>
        ({ a with current_area := .Pages, cursor_negative_offset := 0 }, .ok (some .Refresh))
      | .error e => (a, .error e)
    | none => (a, .error "should always be a space selected")
  | .Backspace => (a.backspace_text, .ok none)
  | .CursorLeft => (a.cursor_left, .ok none)
  | .CursorRight => (a.cursor_right, .ok none)
  | .TypeChar value => (a.type_char value, .ok none)
  | .DeletePage =>
    (if a.get_selected_page.isSome then { a with current_area := .DeletePopup } else a, .ok none)
  | .ConfirmDeletePage =>
    match a.get_selected_page with
    | some page =>
      match env.deletePage page with
      | .ok _ => ({ a with current_area := .Pages }, .ok (some .Refresh))
      | .error e => (a, .error e)
    | none => (a, .error "should not delete without selected page")
  | .CancelDeletePage => ({ a with current_area := .Pages }, .ok none)
  | .StartSearch => ({ a with current_area := .SearchPopup }, .ok none)
  | .ConfirmSearch =>
    let b := { a with current_area := .Pages }
    match b.confirm_search_refresh env with
    | (c, .error e) => (c, .error e)
    | (c, .ok _) =>
      ({ c with page_list := c.page_list.filter (matchesSearch c.search.current_search), search := { c.search with search_active := true }, cursor_negative_offset := 0 }, .ok none)
  | .CancelSearch =>
    let b :=
      if !a.search.search_active then
        { a with search := { a.search with current_search := [] } }
      else a
    ({ b with current_area := .Pages, cursor_negative_offset := 0 }, .ok none)
  | .TogglePreview => (a.toggle_preview, .ok none)
  | .ToggleHelp => (a.toggle_help, .ok none)
  | .StartSort => ({ a with current_area := .SortPopup }, .ok none)
  | .ConfirmSort =>
    match a.set_sort with
    | (b, .ok _) => ({ b with current_area := .Pages }, .ok none)
    | (b, .error e) => (b, .error e)
  | .CancelSort => ({ a.reset_sort_state with current_area := .Pages }, .ok none)
  | .ToggleSortDir => (a.toggle_sort_dir, .ok none)
  | .MouseSelect x y => (a.mouse_select_list x y, .ok none)
  | .UpdateTitle =>
    let b := { a with current_area := .TitlePopup }
    match b.get_selected_page with
    | some page => ({ b with page_updated_title := page.title.toList }, .ok none)
    | none => (b, .error "should be a page selected")
  | .CancelTitle =>
    ({ a with current_area := .Pages, page_updated_title := [], cursor_negative_offset := 0 },
      .ok none)
  | .ConfirmTitle =>
    match a.get_selected_page with
    | some current_page =>
      match env.updateTitle current_page a.page_updated_title with
      | .ok _ =>
        ({ a with cursor_negative_offset := 0, current_area := .Pages }, .ok (some .Refresh))
      | .error e => (a, .error e)
    | none => (a, .error "should always be a page selected")

/-- The inner while of run: keep applying update1 while a chained
message is returned.  Fuel bounds the chain length (the longest chain in
the source is ConfirmSave, Save, Refresh); none signals an error, on
which the session loop terminates.  The result is the state at the next
render point. -/
def chainStep (env : Env) : Nat → App → Message → Option App
  | 0, _, _ => none
  | fuel + 1, a, m =>
    match update1 env a m with
    | (_, .error _) => none
    | (b, .ok none) => some b
    | (b, .ok (some m2)) => chainStep env fuel b m2

/-- Drive the session loop over a list of translated input messages,
stopping (as run does) when an update returns an error. -/
def runList (env : Env) (a : App) : List Message → Option App
  | [] => some a
  | m :: ms =>
    match chainStep env 8 a m with
    | none => none
    | some b => runList env b ms

/-- Session states reachable from program start: display builds App::new
from the fetched space list, then every successful update1 application
(chained or input-driven) yields the next state.  Updates that return an
error terminate the program, so they produce no reachable state. -/
inductive Reach (env : Env) : App → Prop where
  | init : ∀ sps, env.listSpaces = Except.ok sps → Reach env (App.new sps)
  | step : ∀ s s2 m om, Reach env s → update1 env s m = (s2, Except.ok om) → Reach env s2

/-- A concrete space used by the counterexample runs. -/
def sp1 : Space := { id := "s1", key := "ENG", name := "Eng" }

/-- Concrete pages used by the counterexample runs. -/
def pgA : Page := { id := "p1", title := "alpha", created_at := some "2024-01-01T00:00:00.000Z" }

/-- Second concrete page; its title does not contain the letter l. -/
def pgB : Page := { id := "p2", title := "beta", created_at := some "2024-01-02T00:00:00.000Z" }

/-- A store environment where every operation succeeds: one space whose
page list is [pgA, pgB], and an editor that yields a fixed file path. -/
def env1 : Env :=
  { listSpaces := .ok [sp1]
    listPages := fun _ => .ok [pgA, pgB]
    uploadPage := fun _ _ => .ok ()
    createPage := fun _ _ => .ok ()
    deletePage := fun _ => .ok ()
    updateTitle := fun _ _ => .ok ()
    editPage := fun _ => .ok "/tmp/p1.md" }

/-- env1 with a store whose upload always fails. -/
def env5 : Env := { env1 with uploadPage := fun _ _ => .error "upload failed" }

/-- The initial state under env1 and env5. -/
def app0 : App := App.new [sp1]

/-- Input trace that enters the space, selects the first page and opens
the editor; its final state shows the save popup. -/
def traceToSave : List Message := [.ListNext, .Select, .ListNext, .Select]

/-- The state at the save popup, reached by traceToSave under env1. -/
def sSave : App := (runList env1 app0 traceToSave).getD app0

/-- The same save-popup state under the failing-upload store (the upload
oracle is not consulted on the way there). -/
def sSave5 : App := (runList env5 app0 traceToSave).getD app0

/-- The state after rejecting the save from the save popup. -/
def sReject : App := (runList env1 app0 (traceToSave ++ [.RejectSave])).getD app0

/-- Input trace for the dangling-selection run: select the second of two
pages, then run a search only the first page matches. -/
def traceShrink : List Message :=
  [.ListNext, .Select, .ListNext, .ListNext, .StartSearch, .TypeChar 'l', .ConfirmSearch]

/-- The state after traceShrink under env1: one page left in the list,
selected index still 1. -/
def sShrink : App := (runList env1 app0 traceShrink).getD app0

/-- The state after entering the page pane, before any sort popup. -/
def sPages : App := (runList env1 app0 [.ListNext, .Select]).getD app0

/-- The state after opening the sort popup, toggling the direction and
cancelling, starting from sPages. -/
def sSortCancel : App :=
  (runList env1 sPages [.StartSort, .ToggleSortDir, .CancelSort]).getD app0

/-- Input trace that creates a page titled D and reopens the new-page
popup. -/
def traceNewPage : List Message :=
  [.ListNext, .Select, .NewPage, .TypeChar 'D', .SaveNewPage, .NewPage]

/-- The state after traceNewPage under env1: the popup is open again and
the title field still holds D. -/
def sNewPage : App := (runList env1 app0 traceNewPage).getD app0

/-- ConfirmSave applied at the save popup under the failing store: the
map is marked Saved and the Save message is chained. -/
def sConfirm5 : App := (update1 env5 sSave5 .ConfirmSave).1

/-- Pages used by the date-sort counterexample: same creation date, the
later time of day listed first; full-timestamp order would swap them. -/
def pgC : Page := { id := "pc", title := "C", created_at := some "2024-03-05T10:00:00.000Z" }

/-- Companion page created earlier on the same date. -/
def pgD : Page := { id := "pd", title := "D", created_at := some "2024-03-05T05:00:00.000Z" }

/-- The edited-file-path invariant of the save popup: whenever the mode
is the save popup, a pending edited-file path is recorded. -/
def SaveInv (a : App) : Prop :=
  a.current_area = CurrentArea.SavePopup → a.edited_file_path.isSome = true

/-- A state transformer that changes neither the current area nor the
edited-file path. -/
def presAP (f : App → App) : Prop :=
  ∀ a, (f a).current_area = a.current_area ∧ (f a).edited_file_path = a.edited_file_path

/-- The cursor offset is within the buffer the current area routes text
entry to (trivial in areas without a text field). -/
def offsetValid (a : App) : Prop :=
  match textOf a with
  | some t => a.cursor_negative_offset ≤ t.length
  | none => True

/-- Overwrite the search query field (the contents the user typed into
the search popup before confirming). -/
def withQuery (q : List Char) (a : App) : App :=
  { a with search := { a.search with current_search := q } }

/-- Recognize the message that would type the letter q into a text
field. -/
def isTypeCharQ : Option Message → Bool
  | some (.TypeChar c) => c == 'q'
  | _ => false

/-- A state in the new-page popup with a two-character buffer, used to
witness the text-field round trip. -/
def sTextField : App :=
  { App.new [] with current_area := CurrentArea.NewPagePopup, new_page_title := ['a', 'b'] }

/-- A state focusing an empty page list, used to witness empty-list
navigation. -/
def sEmptyPages : App := { App.new [] with current_area := CurrentArea.Pages }

/-- A successful chain of updates only passes through successful update1
applications, so it preserves reachability. -/
theorem chainStep_reach (env : Env) :
    ∀ fuel a m b, Reach env a → chainStep env fuel a m = some b → Reach env b := by
  intro fuel
  induction fuel with
  | zero => intro a m b _ h; exact absurd h (by simp [chainStep])
  | succ n ih =>
    intro a m b ha h
    rw [chainStep] at h
    rcases hu : update1 env a m with ⟨a2, r⟩
    rw [hu] at h
    match r with
    | .error e => simp at h
    | .ok none =>
      simp at h
      exact h ▸ Reach.step a a2 m none ha hu
    | .ok (some m2) =>
      simp at h
      exact ih a2 m2 b (Reach.step a a2 m (some m2) ha hu) h

/-- Driving the loop over any message list preserves reachability. -/
theorem runList_reach (env : Env) :
    ∀ ms a b, Reach env a → runList env a ms = some b → Reach env b := by
  intro ms
  induction ms with
  | nil => intro a b ha h; simp [runList] at h; exact h ▸ ha
  | cons m ms ih =>
    intro a b ha h
    rw [runList] at h
    rcases hc : chainStep env 8 a m with _ | c
    · rw [hc] at h; simp at h
    · rw [hc] at h
      exact ih c b (chainStep_reach env 8 a m c ha hc) h

/-- The lexicographic order on character lists is total. -/
theorem chLe_total : ∀ xs ys : List Char, chLe xs ys = true ∨ chLe ys xs = true := by
  intro xs
  induction xs with
  | nil => intro ys; left; rfl
  | cons a as ih =>
    intro ys
    cases ys with
    | nil => right; rfl
    | cons b bs =>
      rcases Nat.lt_trichotomy a.toNat b.toNat with h | h | h
      · left; simp [chLe, h]
      · rcases ih bs with h2 | h2
        · left; simp [chLe, h, h2]
        · right; simp [chLe, h.symm, h2]
      · right; simp [chLe, h]

/-- The lexicographic order on character lists is transitive. -/
theorem chLe_trans :
    ∀ xs ys zs : List Char, chLe xs ys = true → chLe ys zs = true → chLe xs zs = true := by
  intro xs
  induction xs with
  | nil => intro ys zs _ _; rfl
  | cons a as ih =>
    intro ys zs h1 h2
    cases ys with
    | nil => simp [chLe] at h1
    | cons b bs =>
      cases zs with
      | nil => simp [chLe] at h2
      | cons c cs =>
        simp only [chLe] at h1 h2 ⊢
        split_ifs at h1 h2 ⊢ <;> try rfl
        all_goals try omega
        all_goals exact ih bs cs h1 h2

/-- The lexicographic order on character lists is reflexive. -/
theorem chLe_refl : ∀ xs : List Char, chLe xs xs = true := by
  intro xs
  induction xs with
  | nil => rfl
  | cons a as ih => simp [chLe, Nat.lt_irrefl, ih]

/-- Inserting in key order splits the filtered-by-key view: an element
whose key matches goes to the front of the matching elements (any
element it passes over has a strictly different key, since equal keys
satisfy the order), and an element whose key differs leaves the view
unchanged. -/
theorem orderedInsert_filter_key {α : Type} (r : α → α → Prop) [DecidableRel r]
    (key : α → String) (hrefl : ∀ x y, key x = key y → r x y) (v : String) (a : α) :
    ∀ l : List α,
      (l.orderedInsert r a).filter (fun x => key x == v)
        = if key a == v then a :: l.filter (fun x => key x == v)
          else l.filter (fun x => key x == v) := by
  intro l
  induction l with
  | nil => by_cases hka : (key a == v) = true <;> simp [List.orderedInsert, hka]
  | cons b l ih =>
    by_cases hrb : r a b
    · rw [List.orderedInsert, if_pos hrb]
      by_cases hka : (key a == v) = true
      · rw [if_pos hka]; simp [List.filter_cons, hka]
      · rw [if_neg hka]; simp [List.filter_cons, hka]
    · rw [List.orderedInsert, if_neg hrb]
      by_cases hka : (key a == v) = true
      · have hkb : (key b == v) = false := by
          rw [beq_eq_false_iff_ne]
          intro hbv
          have hav : key a = v := by simpa using hka
          exact hrb (hrefl a b (by rw [hav, hbv]))
        rw [if_pos hka]
        simp [List.filter_cons, hkb, ih, hka]
      · rw [if_neg hka]
        simp [List.filter_cons, ih, hka]

/-- Stability of insertion sort, stated through the filtered-by-key
view: the subsequence of elements with any given sort key is exactly the
input subsequence with that key, in input order. -/
theorem insertionSort_filter_key {α : Type} (r : α → α → Prop) [DecidableRel r]
    (key : α → String) (hrefl : ∀ x y, key x = key y → r x y) (v : String) :
    ∀ l : List α,
      (l.insertionSort r).filter (fun x => key x == v) = l.filter (fun x => key x == v) := by
  intro l
  induction l with
  | nil => rfl
  | cons a l ih =>
    simp only [List.insertionSort]
    rw [orderedInsert_filter_key r key hrefl v a (l.insertionSort r)]
    by_cases hka : (key a == v) = true
    · rw [if_pos hka, ih]; simp [List.filter_cons, hka]
    · rw [if_neg hka, ih]; simp [List.filter_cons, hka]

/-- Equal creation-date keys are related by the ascending date order. -/
theorem dateLe_of_key_eq (x y : Page) (h : x.get_date_created = y.get_date_created) :
    dateLe x y := by
  unfold dateLe strLe
  rw [h]
  exact chLe_refl _

/-- Equal creation-date keys are related by the descending date order. -/
theorem dateGe_of_key_eq (x y : Page) (h : x.get_date_created = y.get_date_created) :
    dateGe x y := by
  unfold dateGe strLe
  rw [h]
  exact chLe_refl _

/-- Inserting at an in-range position grows the length by one. -/
theorem listInsertAt_length {α : Type} :
    ∀ (n : Nat) (c : α) (l : List α), n ≤ l.length →
      (listInsertAt n c l).length = l.length + 1 := by
  intro n
  induction n with
  | zero => intro c l _; simp [listInsertAt]
  | succ k ih =>
    intro c l h
    cases l with
    | nil => simp at h
    | cons x xs =>
      simp only [listInsertAt, List.length_cons]
      rw [ih c xs (by simpa using h)]

/-- Removing at the position just inserted at restores the list. -/
theorem listRemoveAt_listInsertAt {α : Type} :
    ∀ (n : Nat) (c : α) (l : List α), n ≤ l.length →
      listRemoveAt n (listInsertAt n c l) = l := by
  intro n
  induction n with
  | zero => intro c l _; simp [listInsertAt, listRemoveAt]
  | succ k ih =>
    intro c l h
    cases l with
    | nil => simp at h
    | cons x xs =>
      simp only [listInsertAt, listRemoveAt]
      rw [ih c xs (by simpa using h)]

theorem presAP_SaveInv {f : App → App} (hp : presAP f) {a : App} (h : SaveInv a) :
    SaveInv (f a) := by
  intro hc
  rcases hp a with ⟨h1, h2⟩
  rw [h2]
  exact h (h1 ▸ hc)

theorem setText_area (a : App) (t : List Char) : (setText a t).current_area = a.current_area := by
  unfold setText; split <;> rfl

theorem setText_path (a : App) (t : List Char) :
    (setText a t).edited_file_path = a.edited_file_path := by
  unfold setText; split <;> rfl

theorem presAP_list_next : presAP App.list_next := by
  intro a; unfold App.list_next; split <;> simp

theorem presAP_list_previous : presAP App.list_previous := by
  intro a; unfold App.list_previous; split <;> simp

theorem presAP_backspace_text : presAP App.backspace_text := by
  intro a
  unfold App.backspace_text
  split
  · simp
  · dsimp only
    split
    · exact ⟨setText_area _ _, setText_path _ _⟩
    · simp

theorem presAP_cursor_left : presAP App.cursor_left := by
  intro a
  unfold App.cursor_left
  split
  · simp
  · split <;> simp

theorem presAP_type_char (c : Char) : presAP (fun a => a.type_char c) := by
  intro a
  dsimp only
  unfold App.type_char
  split
  · simp
  · exact ⟨setText_area _ _, setText_path _ _⟩

theorem presAP_mouse_select (x y : Nat) : presAP (fun a => a.mouse_select_list x y) := by
  intro a
  dsimp only
  unfold App.mouse_select_list
  split <;> simp

theorem presAP_reset_search : presAP App.reset_search := by
  intro a; unfold App.reset_search; split <;> simp

theorem presAP_reset_sort : presAP App.reset_sort := by
  intro a; exact ⟨rfl, rfl⟩

theorem set_sort_saved (a : App) :
    (a.set_sort).1.sort.saved_state = (a.sort.type_state, a.sort.dir_state) := by
  unfold App.set_sort
  dsimp only
  split <;> rfl

theorem set_sort_area_path (a : App) :
    (a.set_sort).1.current_area = a.current_area ∧
      (a.set_sort).1.edited_file_path = a.edited_file_path := by
  unfold App.set_sort
  dsimp only
  split <;> simp

theorem load_pages_area_path (a : App) (env : Env) (sid : String) :
    ((a.load_pages env sid).1.current_area = a.current_area ∧
      (a.load_pages env sid).1.edited_file_path = a.edited_file_path) := by
  unfold App.load_pages
  split <;> simp

theorem refresh_area_path (a : App) (env : Env) :
    ((a.refresh_current_list env).1.current_area = a.current_area ∧
      (a.refresh_current_list env).1.edited_file_path = a.edited_file_path) := by
  unfold App.refresh_current_list
  split
  · split
    · exact load_pages_area_path _ _ _
    · simp
  · split <;> simp
  · simp

theorem confirm_search_refresh_area_path (a : App) (env : Env) :
    ((a.confirm_search_refresh env).1.current_area = a.current_area ∧
      (a.confirm_search_refresh env).1.edited_file_path = a.edited_file_path) := by
  unfold App.confirm_search_refresh
  split
  · exact refresh_area_path a env
  · simp

theorem presAP_toggle_sort_dir : presAP App.toggle_sort_dir := by
  intro a; unfold App.toggle_sort_dir; split <;> simp

/-- One update1 application preserves the save-popup path invariant:
the only transition that enters the save popup (OpenEditor) records the
path first, and no transition discards the path. -/
theorem update1_SaveInv (env : Env) (a : App) (m : Message) (h : SaveInv a) :
    SaveInv (update1 env a m).1 := by
  cases m with
  | Exit => exact h
  | ListNext => exact presAP_SaveInv presAP_list_next h
  | ListPrevious => exact presAP_SaveInv presAP_list_previous h
  | Select =>
    simp only [update1]
    split
    · split
      · rename_i sp hsp
        rcases hl : a.load_pages env sp.id with ⟨b, r⟩
        have hlp := load_pages_area_path a env sp.id
        rw [hl] at hlp
        cases r with
        | ok u => intro hc; simp at hc
        | error e =>
          intro hc
          dsimp only at hc hlp ⊢
          rw [hlp.2]
          exact h (by rw [← hlp.1]; exact hc)
      · exact h
    · exact h
    · exact h
  | OpenEditor =>
    simp only [update1]
    split
    · split
      · intro _; rfl
      · exact h
    · exact h
  | ConfirmSave =>
    simp only [update1]
    split
    · split
      · exact h
      · exact h
    · exact h
  | RejectSave =>
    simp only [update1]
    split
    · intro hc; simp at hc
    · exact h
  | Save =>
    simp only [update1]
    split
    · split
      · split
        · intro hc; simp at hc
        · exact h
      · exact h
    · exact h
  | Back =>
    simp only [update1]
    refine presAP_SaveInv presAP_reset_search ?_
    split
    · intro hc; simp at hc
    · rename_i harea
      intro hc
      simp only at hc
      rw [harea] at hc
      simp at hc
    · exact h
  | Refresh =>
    simp only [update1]
    have h2 : SaveInv a.reset_search.reset_sort :=
      presAP_SaveInv presAP_reset_sort (presAP_SaveInv presAP_reset_search h)
    rcases hr : a.reset_search.reset_sort.refresh_current_list env with ⟨c, r⟩
    have hlp := refresh_area_path a.reset_search.reset_sort env
    rw [hr] at hlp
    cases r <;>
      (intro hc
       dsimp only at hc hlp ⊢
       rw [hlp.2]
       exact h2 (by rw [← hlp.1]; exact hc))
  | NewPage => intro hc; simp [update1] at hc
  | CancelNewPage => intro hc; simp [update1] at hc
  | SaveNewPage =>
    simp only [update1]
    split
    · split
      · intro hc; simp at hc
      · exact h
    · exact h
  | Backspace => exact presAP_SaveInv presAP_backspace_text h
  | CursorLeft => exact presAP_SaveInv presAP_cursor_left h
  | CursorRight => exact h
  | TypeChar c => exact presAP_SaveInv (presAP_type_char c) h
  | DeletePage =>
    simp only [update1]
    split
    · intro hc; simp at hc
    · exact h
  | ConfirmDeletePage =>
    simp only [update1]
    split
    · split
      · intro hc; simp at hc
      · exact h
    · exact h
  | CancelDeletePage => intro hc; simp [update1] at hc
  | StartSearch => intro hc; simp [update1] at hc
  | ConfirmSearch =>
    simp only [update1]
    rcases hm : ({ a with current_area := CurrentArea.Pages } : App).confirm_search_refresh env
      with ⟨c, r⟩
    have hlp := confirm_search_refresh_area_path { a with current_area := CurrentArea.Pages } env
    rw [hm] at hlp
    have harea : c.current_area = CurrentArea.Pages := hlp.1
    cases r <;>
      (intro hc
       simp only at hc
       rw [harea] at hc
       simp at hc)
  | CancelSearch =>
    simp only [update1]
    split <;> (intro hc; simp at hc)
  | TogglePreview => exact h
  | ToggleHelp => exact h
  | StartSort => intro hc; simp [update1] at hc
  | ConfirmSort =>
    simp only [update1]
    rcases hs : a.set_sort with ⟨b, r⟩
    have hlp := set_sort_area_path a
    rw [hs] at hlp
    cases r with
    | ok u => intro hc; simp at hc
    | error e =>
      intro hc
      dsimp only at hc hlp ⊢
      rw [hlp.2]
      exact h (by rw [← hlp.1]; exact hc)
  | CancelSort => intro hc; simp [update1] at hc
  | ToggleSortDir => exact presAP_SaveInv presAP_toggle_sort_dir h
  | MouseSelect x y => exact presAP_SaveInv (presAP_mouse_select x y) h
  | UpdateTitle =>
    simp only [update1]
    split
    · intro hc; simp at hc
    · intro hc; simp at hc
  | CancelTitle => intro hc; simp [update1] at hc
  | ConfirmTitle =>
    simp only [update1]
    split
    · split
      · intro hc; simp at hc
      · exact h
    · exact h

/-- Reachable states satisfy the save-popup path invariant. -/
theorem reach_SaveInv (env : Env) (a : App) (hr : Reach env a) : SaveInv a := by
  induction hr with
  | init sps _ => intro hc; simp [App.new] at hc
  | step s s2 m om _ hu ih =>
    have := update1_SaveInv env s m ih
    rw [hu] at this
    exact this

theorem reset_search_pls (a : App) : a.reset_search.page_list_state = a.page_list_state := by
  unfold App.reset_search; split <;> rfl

theorem load_pages_pls (a : App) (env : Env) (sid : String) :
    (a.load_pages env sid).1.page_list_state = a.page_list_state := by
  unfold App.load_pages; split <;> rfl

theorem refresh_pls (a : App) (env : Env) :
    (a.refresh_current_list env).1.page_list_state = a.page_list_state := by
  unfold App.refresh_current_list
  split
  · split
    · exact load_pages_pls _ _ _
    · rfl
  · split <;> rfl
  · rfl

theorem csr_pls (a : App) (env : Env) :
    (a.confirm_search_refresh env).1.page_list_state = a.page_list_state := by
  unfold App.confirm_search_refresh
  split
  · exact refresh_pls _ _
  · rfl

theorem insert_remove_round_trip (t : List Char) (off : Nat) (c : Char) (h : off ≤ t.length) :
    listRemoveAt ((listInsertAt (t.length - off) c t).length - (off + 1))
      (listInsertAt (t.length - off) c t) = t := by
  rw [listInsertAt_length _ _ _ (Nat.sub_le _ _)]
  have hidx : t.length + 1 - (off + 1) = t.length - off := by omega
  rw [hidx]
  exact listRemoveAt_listInsertAt _ _ _ (Nat.sub_le _ _)

theorem insert_length_cond (t : List Char) (off : Nat) (c : Char) (h : off ≤ t.length) :
    (listInsertAt (t.length - off) c t).length ≠ 0 ∧
      (listInsertAt (t.length - off) c t).length ≠ off := by
  rw [listInsertAt_length _ _ _ (Nat.sub_le _ _)]
  omega

/-- C1: the claimed both-directions invariant is refuted on a reachable
state: after OpenEditor and then RejectSave the mode is BrowsingPages
yet the pending edited-file path is still present, because the
RejectSave arm never clears edited_file_path. -/
theorem claim_c1_counterexample :
    Reach env1 sReject ∧ sReject.current_area = CurrentArea.Pages ∧
      sReject.edited_file_path = some "/tmp/p1.md" ∧
      decide (sReject.current_area = CurrentArea.SavePopup) = false :=
  ⟨runList_reach env1 (traceToSave ++ [.RejectSave]) app0 sReject
      (Reach.init [sp1] rfl) (by decide),
    by decide, by decide, by decide⟩

/-- C1 (amended): in every reachable session state, if the mode is
ConfirmSave then a pending edited-file path is present (OpenEditor sets
it on entry); the converse direction fails because neither leaving
transition (ConfirmSave-accepted or RejectSave) clears the path. -/
theorem claim_c1 (env : Env) (a : App) (hr : Reach env a)
    (hmode : a.current_area = CurrentArea.SavePopup) : a.edited_file_path.isSome = true :=
  reach_SaveInv env a hr hmode

/-- C1 witness: the reachable save-popup state after traceToSave. -/
theorem claim_c1_witness : sSave.edited_file_path.isSome = true :=
  claim_c1 env1 sSave
    (runList_reach env1 traceToSave app0 sSave (Reach.init [sp1] rfl) (by decide))
    (by decide)

/-- C2: the claimed cursor-bound invariant is refuted on a reachable
state: a filtering search shrinks the page list to one element but the
selected index stays 1, which is not less than the length. -/
theorem claim_c2_counterexample :
    Reach env1 sShrink ∧ sShrink.page_list_state.selected = some 1 ∧
      sShrink.page_list.length = 1 ∧ decide (1 < sShrink.page_list.length) = false :=
  ⟨runList_reach env1 traceShrink app0 sShrink (Reach.init [sp1] rfl) (by decide),
    by decide, by decide, by decide⟩

/-- C2 (amended): the operations that replace the page list (Refresh,
ConfirmSearch, and a space Select, which loads the page list) leave the
page selection untouched rather than resetting it, so a dangling index
can persist; safety is preserved because the bounds-checked
get_selected_page returns none for an index at or past the length. -/
theorem claim_c2 (env : Env) (a : App) :
    (update1 env a .Refresh).1.page_list_state = a.page_list_state ∧
      (update1 env a .Select).1.page_list_state = a.page_list_state ∧
      (update1 env a .ConfirmSearch).1.page_list_state = a.page_list_state ∧
      (∀ i, a.page_list_state.selected = some i → a.page_list.length ≤ i →
        a.get_selected_page = none) := by
  refine ⟨?_, ?_, ?_, ?_⟩
  · simp only [update1]
    rcases hr : a.reset_search.reset_sort.refresh_current_list env with ⟨c, r⟩
    have hp := refresh_pls a.reset_search.reset_sort env
    rw [hr] at hp
    have hp2 : (a.reset_search.reset_sort).page_list_state = a.page_list_state :=
      reset_search_pls a
    cases r <;> dsimp only <;> rw [hp, hp2]
  · simp only [update1]
    split
    · split
      · rename_i sp hsp
        rcases hl : a.load_pages env sp.id with ⟨b, r⟩
        have hp := load_pages_pls a env sp.id
        rw [hl] at hp
        cases r <;> dsimp only <;> exact hp
      · rfl
    · rfl
    · rfl
  · simp only [update1]
    rcases hm : ({ a with current_area := CurrentArea.Pages } : App).confirm_search_refresh env
      with ⟨c, r⟩
    have hp := csr_pls { a with current_area := CurrentArea.Pages } env
    rw [hm] at hp
    cases r <;> dsimp only <;> rw [hp]
  · intro i hsel hlen
    unfold App.get_selected_page
    rw [hsel]
    exact List.getElem?_eq_none hlen

/-- C2 witness: the shrunken-search state, whose dangling index 1 on a
one-element list yields no selected page, and a Refresh from it keeps
the selection. -/
theorem claim_c2_witness :
    (update1 env1 sShrink .Refresh).1.page_list_state = sShrink.page_list_state ∧
      sShrink.get_selected_page = none :=
  ⟨(claim_c2 env1 sShrink).1, (claim_c2 env1 sShrink).2.2.2 1 (by decide) (by decide)⟩

/-- C3: the claimed rollback is refuted on a reachable run: before
StartSort the sort-type selection is index 0, after StartSort then
ToggleSortDir then CancelSort it is none, because StartSort takes no
snapshot and CancelSort restores the snapshot of the last ConfirmSort
(initially the default, nothing-selected snapshot). -/
theorem claim_c3_counterexample :
    Reach env1 sSortCancel ∧ sPages.sort.type_state.selected = some 0 ∧
      sPages.sort.dir_state = SortDirection.Asc ∧
      sSortCancel.sort.type_state.selected = none ∧
      decide (sSortCancel.sort.type_state.selected = sPages.sort.type_state.selected) = false :=
  ⟨runList_reach env1 [.StartSort, .ToggleSortDir, .CancelSort] sPages sSortCancel
      (runList_reach env1 [.ListNext, .Select] app0 sPages (Reach.init [sp1] rfl) (by decide))
      (by decide),
    by decide, by decide, by decide, by decide⟩

/-- C3 (amended): StartSort changes only the mode and takes no
snapshot; the snapshot in saved_state is written by ConfirmSort (as the
type state and direction at the moment of confirming) and is initially
the default nothing-selected, ascending pair; hence StartSort then
ToggleSortDir then CancelSort leaves the sort key and direction equal to
that stored snapshot, not to the values active immediately before
StartSort. -/
theorem claim_c3 (env : Env) (a : App) :
    (update1 env (update1 env (update1 env a .StartSort).1 .ToggleSortDir).1 .CancelSort).1.sort.type_state
        = a.sort.saved_state.1 ∧
      (update1 env (update1 env (update1 env a .StartSort).1 .ToggleSortDir).1 .CancelSort).1.sort.dir_state
        = a.sort.saved_state.2 ∧
      (update1 env a .StartSort).1 = { a with current_area := CurrentArea.SortPopup } ∧
      (update1 env a .ConfirmSort).1.sort.saved_state = (a.sort.type_state, a.sort.dir_state) ∧
      (∀ sps, (App.new sps).sort.saved_state = (LState.init, SortDirection.Asc)) := by
  have h12 :
      (update1 env (update1 env (update1 env a .StartSort).1 .ToggleSortDir).1 .CancelSort).1.sort.type_state
          = a.sort.saved_state.1 ∧
        (update1 env (update1 env (update1 env a .StartSort).1 .ToggleSortDir).1 .CancelSort).1.sort.dir_state
          = a.sort.saved_state.2 := by
    cases h : a.sort.dir_state <;>
      simp [update1, App.toggle_sort_dir, App.reset_sort_state, h]
  have hconf : (update1 env a .ConfirmSort).1.sort.saved_state
      = (a.sort.type_state, a.sort.dir_state) := by
    simp only [update1]
    rcases hs : a.set_sort with ⟨b, r⟩
    have hsv := set_sort_saved a
    rw [hs] at hsv
    cases r <;> dsimp only <;> exact hsv
  exact ⟨h12.1, h12.2, rfl, hconf, fun sps => rfl⟩

/-- C4: lexicographic comparison of the full raw timestamp strings is
refuted: two pages created on the same date keep their input order under
the ascending creation-date sort even though their full timestamps
compare strictly the other way, because the sort key is only the first
ten characters. -/
theorem claim_c4_counterexample :
    sort_pages .CreatedOn .Asc [pgC, pgD] = [pgC, pgD] ∧
      pgC.created_at = some "2024-03-05T10:00:00.000Z" ∧
      pgD.created_at = some "2024-03-05T05:00:00.000Z" ∧
      chLe (String.toList "2024-03-05T05:00:00.000Z")
        (String.toList "2024-03-05T10:00:00.000Z") = true ∧
      chLe (String.toList "2024-03-05T10:00:00.000Z")
        (String.toList "2024-03-05T05:00:00.000Z") = false := by
  refine ⟨by decide, by decide, by decide, by decide, by decide⟩

/-- C4 (amended): sorting by creation date is a stable sort whose key is
the lexicographic order of the ten-character date prefix of the raw
creation timestamp (empty when absent): the result is a permutation of
the input, pairwise ordered by that key ascending, and by the reversed
comparison descending; equal keys keep input order rather than falling
back to the full timestamp (for every key value, the subsequence of
pages with that date key equals the input subsequence with that key). -/
theorem claim_c4 (l : List Page) :
    (sort_pages .CreatedOn .Asc l).Perm l ∧
      List.Sorted dateLe (sort_pages .CreatedOn .Asc l) ∧
      (sort_pages .CreatedOn .Desc l).Perm l ∧
      List.Sorted dateGe (sort_pages .CreatedOn .Desc l) ∧
      (∀ v, (sort_pages .CreatedOn .Asc l).filter (fun p => p.get_date_created == v)
        = l.filter (fun p => p.get_date_created == v)) ∧
      (∀ v, (sort_pages .CreatedOn .Desc l).filter (fun p => p.get_date_created == v)
        = l.filter (fun p => p.get_date_created == v)) := by
  haveI : IsTrans Page dateLe := ⟨fun a b c h1 h2 => chLe_trans _ _ _ h1 h2⟩
  haveI : IsTotal Page dateLe := ⟨fun a b => chLe_total _ _⟩
  haveI : IsTrans Page dateGe := ⟨fun a b c h1 h2 => chLe_trans _ _ _ h2 h1⟩
  haveI : IsTotal Page dateGe := ⟨fun a b => (chLe_total _ _).symm⟩
  exact ⟨List.perm_insertionSort _ _, List.sorted_insertionSort _ _,
    List.perm_insertionSort _ _, List.sorted_insertionSort _ _,
    fun v => insertionSort_filter_key dateLe Page.get_date_created dateLe_of_key_eq v l,
    fun v => insertionSort_filter_key dateGe Page.get_date_created dateGe_of_key_eq v l⟩

/-- C5: the claimed landing mode is refuted: at the reachable state
where ConfirmSave has chained Save under a store whose upload fails, the
Save step returns the error with the state unchanged, so the mode is
still ConfirmSave (not BrowsingPages) and the session loop terminates
(runList returns none, aborting the rest of the chain). -/
theorem claim_c5_counterexample :
    Reach env5 sConfirm5 ∧ (update1 env5 sConfirm5 .Save).2 = .error "upload failed" ∧
      (update1 env5 sConfirm5 .Save).1 = sConfirm5 ∧
      sConfirm5.current_area = CurrentArea.SavePopup ∧
      decide (sConfirm5.current_area = CurrentArea.Pages) = false ∧
      runList env5 app0 (traceToSave ++ [.ConfirmSave]) = none :=
  ⟨Reach.step sSave5 sConfirm5 .ConfirmSave (some .Save)
      (runList_reach env5 traceToSave app0 sSave5 (Reach.init [sp1] rfl) (by decide))
      (by decide),
    by decide, by decide, by decide, by decide, by decide⟩

/-- C5 (amended): when the upload of the Save step fails, the error
aborts the remaining chain and propagates out of the session loop
(terminating it); the Save arm performs none of its own changes, so the
state is exactly as it was when Save started, still in ConfirmSave
mode. -/
theorem claim_c5 (env : Env) (a : App) (p : Page) (e : String)
    (hmode : a.current_area = CurrentArea.SavePopup)
    (hsel : a.get_selected_page = some p)
    (hup : env.uploadPage p a.edited_file_path = .error e) :
    (update1 env a .Save).1 = a ∧ (update1 env a .Save).2 = .error e := by
  simp [update1, hmode, hsel, hup]

/-- C5 witness: the failing upload at the concrete reachable save-popup
state. -/
theorem claim_c5_witness :
    (update1 env5 sConfirm5 .Save).1 = sConfirm5 ∧
      (update1 env5 sConfirm5 .Save).2 = .error "upload failed" :=
  claim_c5 env5 sConfirm5 pgA "upload failed" (by decide) (by decide) (by decide)

/-- C6: the claimed no-op is refuted at the empty initial state: with an
empty space list and no selection, ListNext selects index 0 and
ListPrevious selects the usize::MAX sentinel instead of leaving the
selection none. -/
theorem claim_c6_counterexample :
    (App.new []).space_list = [] ∧ (App.new []).space_list_state.selected = none ∧
      (update1 env1 (App.new []) .ListNext).1.space_list_state.selected = some 0 ∧
      (update1 env1 (App.new []) .ListPrevious).1.space_list_state.selected = some USIZE_MAX ∧
      decide ((update1 env1 (App.new []) .ListNext).1.space_list_state.selected = none) = false := by
  refine ⟨by decide, by decide, by decide, by decide, by decide⟩

/-- C6 (amended): on an empty focused list with no selection, ListNext
selects index 0 and ListPrevious selects the usize::MAX sentinel (the
ratatui select_last value); the selection is no longer none, though the
bounds-checked element accessors still return none. -/
theorem claim_c6 (env : Env) (a : App) :
    (a.current_area = CurrentArea.Spaces → a.space_list = [] →
      a.space_list_state.selected = none →
      ((update1 env a .ListNext).1.space_list_state.selected = some 0 ∧
        (update1 env a .ListNext).1.get_selected_space = none ∧
        (update1 env a .ListPrevious).1.space_list_state.selected = some USIZE_MAX ∧
        (update1 env a .ListPrevious).1.get_selected_space = none)) ∧
    (a.current_area = CurrentArea.Pages → a.page_list = [] →
      a.page_list_state.selected = none →
      ((update1 env a .ListNext).1.page_list_state.selected = some 0 ∧
        (update1 env a .ListNext).1.get_selected_page = none ∧
        (update1 env a .ListPrevious).1.page_list_state.selected = some USIZE_MAX ∧
        (update1 env a .ListPrevious).1.get_selected_page = none)) := by
  constructor
  · intro h1 h2 h3
    simp [update1, App.list_next, App.list_previous, lnext, lprev, h1, h2, h3,
      LState.select_first, LState.select_last, LState.select,
      App.get_selected_space, App.get_selected_page]
  · intro h1 h2 h3
    simp [update1, App.list_next, App.list_previous, lnext, lprev, h1, h2, h3,
      LState.select_first, LState.select_last, LState.select,
      App.get_selected_space, App.get_selected_page]

/-- C6 witness: the empty initial state (Spaces focus) and an
empty-page-list state (Pages focus). -/
theorem claim_c6_witness :
    ((update1 env1 (App.new []) .ListNext).1.space_list_state.selected = some 0 ∧
      (update1 env1 (App.new []) .ListNext).1.get_selected_space = none ∧
      (update1 env1 (App.new []) .ListPrevious).1.space_list_state.selected = some USIZE_MAX ∧
      (update1 env1 (App.new []) .ListPrevious).1.get_selected_space = none) ∧
    ((update1 env1 sEmptyPages .ListNext).1.page_list_state.selected = some 0 ∧
      (update1 env1 sEmptyPages .ListNext).1.get_selected_page = none ∧
      (update1 env1 sEmptyPages .ListPrevious).1.page_list_state.selected = some USIZE_MAX ∧
      (update1 env1 sEmptyPages .ListPrevious).1.get_selected_page = none) :=
  ⟨(claim_c6 env1 (App.new [])).1 rfl rfl rfl, (claim_c6 env1 sEmptyPages).2 rfl rfl rfl⟩

/-- C7: typing a character and then backspacing restores every text
buffer and the cursor offset, for any state whose cursor offset is
within the routed buffer (in areas without a text field both messages
are no-ops). -/
theorem claim_c7 (env : Env) (a : App) (c : Char) (hval : offsetValid a) :
    ((update1 env (update1 env a (.TypeChar c)).1 .Backspace).1.new_page_title
        = a.new_page_title ∧
      (update1 env (update1 env a (.TypeChar c)).1 .Backspace).1.search.current_search
        = a.search.current_search ∧
      (update1 env (update1 env a (.TypeChar c)).1 .Backspace).1.page_updated_title
        = a.page_updated_title ∧
      (update1 env (update1 env a (.TypeChar c)).1 .Backspace).1.cursor_negative_offset
        = a.cursor_negative_offset) := by
  cases harea : a.current_area with
  | NewPagePopup =>
    have h : a.cursor_negative_offset ≤ a.new_page_title.length := by
      simpa [offsetValid, textOf, harea] using hval
    simp only [update1, App.type_char, App.backspace_text, textOf, setText, harea]
    rw [if_pos (insert_length_cond _ _ c h)]
    simp [insert_remove_round_trip _ _ c h]
  | SearchPopup =>
    have h : a.cursor_negative_offset ≤ a.search.current_search.length := by
      simpa [offsetValid, textOf, harea] using hval
    simp only [update1, App.type_char, App.backspace_text, textOf, setText, harea]
    rw [if_pos (insert_length_cond _ _ c h)]
    simp [insert_remove_round_trip _ _ c h]
  | TitlePopup =>
    have h : a.cursor_negative_offset ≤ a.page_updated_title.length := by
      simpa [offsetValid, textOf, harea] using hval
    simp only [update1, App.type_char, App.backspace_text, textOf, setText, harea]
    rw [if_pos (insert_length_cond _ _ c h)]
    simp [insert_remove_round_trip _ _ c h]
  | Spaces => simp [update1, App.type_char, App.backspace_text, textOf, harea]
  | Pages => simp [update1, App.type_char, App.backspace_text, textOf, harea]
  | SavePopup => simp [update1, App.type_char, App.backspace_text, textOf, harea]
  | DeletePopup => simp [update1, App.type_char, App.backspace_text, textOf, harea]
  | SortPopup => simp [update1, App.type_char, App.backspace_text, textOf, harea]

/-- C7 witness: typing x into a two-character new-page title at offset 0
and backspacing restores the buffer and offset. -/
theorem claim_c7_witness :
    (update1 env1 (update1 env1 sTextField (.TypeChar 'x')).1 .Backspace).1.new_page_title
        = sTextField.new_page_title ∧
      (update1 env1 (update1 env1 sTextField (.TypeChar 'x')).1 .Backspace).1.search.current_search
        = sTextField.search.current_search ∧
      (update1 env1 (update1 env1 sTextField (.TypeChar 'x')).1 .Backspace).1.page_updated_title
        = sTextField.page_updated_title ∧
      (update1 env1 (update1 env1 sTextField (.TypeChar 'x')).1 .Backspace).1.cursor_negative_offset
        = sTextField.cursor_negative_offset :=
  claim_c7 env1 sTextField 'x' (by simp [offsetValid, textOf, sTextField, App.new])

/-- C8: two consecutive ConfirmSearch runs with queries q1 then q2
produce the same page list as one ConfirmSearch with q2 on the full
unfiltered (freshly loaded, default-sorted) list: the second search
first reloads the unfiltered list because a search is active, so filters
never compound. -/
theorem claim_c8 (env : Env) (a : App) (sp : Space) (ps : List Page) (q1 q2 : List Char)
    (hsp : a.get_selected_space = some sp)
    (hps : env.listPages sp.id = .ok ps)
    (hact : a.search.search_active = false) :
    (update1 env (withQuery q2 (update1 env (withQuery q1 a) .ConfirmSearch).1)
        .ConfirmSearch).1.page_list
      = (update1 env (withQuery q2 { a with page_list := sort_pages .CreatedOn .Asc ps })
          .ConfirmSearch).1.page_list := by
  simp only [App.get_selected_space] at hsp
  rcases hsel : a.space_list_state.selected with _ | i
  · rw [hsel] at hsp; exact absurd hsp (by simp)
  · rw [hsel] at hsp
    dsimp only at hsp
    simp [update1, withQuery, App.confirm_search_refresh, App.refresh_current_list,
      App.load_pages, App.get_selected_space, hsel, hsp, hps, hact]

/-- C8 witness: searching first for the letter l and then for the letter
b in the concrete two-page space equals one search for b on the freshly
loaded list; both leave only the page titled beta. -/
theorem claim_c8_witness :
    (update1 env1 (withQuery ['b'] (update1 env1 (withQuery ['l'] sPages) .ConfirmSearch).1)
        .ConfirmSearch).1.page_list
      = (update1 env1 (withQuery ['b']
          { sPages with page_list := sort_pages .CreatedOn .Asc [pgA, pgB] })
          .ConfirmSearch).1.page_list :=
  claim_c8 env1 sPages sp1 [pgA, pgB] ['l'] ['b'] (by decide) rfl (by decide)

/-- C9: the claimed clearing is refuted on a reachable run: after
creating a page titled D (SaveNewPage does not clear the field) a second
NewPage opens the compose popup with the title field still holding D. -/
theorem claim_c9_counterexample :
    Reach env1 sNewPage ∧ sNewPage.current_area = CurrentArea.NewPagePopup ∧
      sNewPage.new_page_title = ['D'] ∧
      decide (sNewPage.new_page_title = []) = false :=
  ⟨runList_reach env1 traceNewPage app0 sNewPage (Reach.init [sp1] rfl) (by decide),
    by decide, by decide, by decide⟩

/-- C9 (amended): NewPage moves the mode to ComposeNewPage and changes
nothing else, leaving the title field untouched; the field is cleared by
CancelNewPage, not on entry. -/
theorem claim_c9 (env : Env) (a : App) :
    (update1 env a .NewPage).1 = { a with current_area := CurrentArea.NewPagePopup } ∧
      (update1 env a .CancelNewPage).1.new_page_title = [] :=
  ⟨rfl, rfl⟩

/-- C10: in every UI mode the key q maps to Exit and the key question
mark maps to ToggleHelp, and no key in any mode produces TypeChar q, so
the letter q can never be typed into a text field. -/
theorem claim_c10 :
    (∀ area, handle_key_event (.Char 'q') area = some .Exit) ∧
      (∀ area, handle_key_event (.Char '?') area = some .ToggleHelp) ∧
      (∀ k area, isTypeCharQ (handle_key_event k area) = false) := by
  refine ⟨fun area => rfl, fun area => rfl, fun k area => ?_⟩
  cases k with
  | Char c =>
    by_cases hq : c = 'q'
    · subst hq; rfl
    · by_cases hh : c = '?'
      · subst hh; rfl
      · cases area <;>
          simp [handle_key_event, areaKey, isTypeCharQ, hq, hh] <;>
          (try split_ifs <;> rfl)
  | Up => cases area <;> rfl
  | Down => cases area <;> rfl
  | Left => cases area <;> rfl
  | Right => cases area <;> rfl
  | Enter => cases area <;> rfl
  | Esc => cases area <;> rfl
  | Backspace => cases area <;> rfl
  | Other => cases area <;> rfl

end Concmd
